import Mathlib

/-!
Shallow embedding of the sports-betting backend (betting engine, auth
service, admin dashboard) and proofs about its behaviour.

Money amounts, balances and odds are embedded as rationals (the source
uses floating-point numbers; every computation the theorems below touch
is exact at the inputs considered).  Timestamps are natural numbers
counting seconds.  Database rows become lists of records; the ORM session
becomes explicit state passing on a `BettingService` record that also
holds the process-wide lock map and running deposit total.
-/

namespace Prikol

/-- Modelled from the spec: the repository file src/models/user.py (the
User entity) is not among the provided source files; its fields follow
the data model of the spec (identifier, username, email, role, balance,
total_deposited, is_active) and its use sites in the provided code. -/
structure User where
  id : Nat
  username : String
  email : String
  role : String
  balance : ℚ
  total_deposited : ℚ
  is_active : Bool
deriving Repr, DecidableEq

/-- The Event entity of src/models/event.py (fields the engine reads or
writes; description/start_time/timestamps are never consulted by the
operations below and are omitted). -/
structure Event where
  id : Nat
  name : String
  sport_type : String
  is_active : Bool
  is_finished : Bool
  result : Option String
deriving Repr, DecidableEq

/-- The Bet entity of src/models/bet.py. -/
structure Bet where
  id : Nat
  user_id : Nat
  event_id : Nat
  amount : ℚ
  odds : ℚ
  predicted_outcome : String
  is_won : Option Bool
  payout : ℚ
  resolved_at : Option Nat
deriving Repr, DecidableEq

/-- The state a BettingService instance can reach: the three database
tables plus the in-memory lock map (user id, unlock time) and the
running total_service_deposit. -/
structure BettingService where
  users : List User
  events : List Event
  bets : List Bet
  locked_users : List (Nat × Nat)
  total_service_deposit : ℚ
deriving Repr, DecidableEq

/-- The bookie margin constant set in BettingService.__init__ (0.05). -/
def bookie_margin : ℚ := 5 / 100

/-- Settings.min_bet_amount from config.py. -/
def min_bet_amount : ℚ := 1

/-- Settings.max_bet_amount from config.py. -/
def max_bet_amount : ℚ := 10000

/-- Settings.withdrawal_lock_duration from config.py (seconds). -/
def withdrawal_lock_duration : Nat := 30

/-- First user with the given id (the scalar_one_or_none of a filtered
select on User.id). -/
def findUser : List User → Nat → Option User
  | [], _ => none
  | u :: us, uid => if u.id = uid then some u else findUser us uid

/-- First event with the given id. -/
def findEvent : List Event → Nat → Option Event
  | [], _ => none
  | e :: es, eid => if e.id = eid then some e else findEvent es eid

/-- Apply an update to every user row with the given id (the ORM
mutation of the fetched object, ids being unique in the table). -/
def updateUser : List User → Nat → (User → User) → List User
  | [], _, _ => []
  | u :: us, uid, f => (if u.id = uid then f u else u) :: updateUser us uid f

/-- Apply an update to every event row with the given id. -/
def updateEvent : List Event → Nat → (Event → Event) → List Event
  | [], _, _ => []
  | e :: es, eid, f => (if e.id = eid then f e else e) :: updateEvent es eid f

/-- Balance of the user with the given id, when present. -/
def balanceOf (users : List User) (uid : Nat) : Option ℚ :=
  (findUser users uid).map User.balance

/-- total_deposited of the user with the given id, when present. -/
def depositedOf (users : List User) (uid : Nat) : Option ℚ :=
  (findUser users uid).map User.total_deposited

/-- Dictionary lookup in the locked_users map. -/
def lockLookup : List (Nat × Nat) → Nat → Option Nat
  | [], _ => none
  | (k, t) :: rest, uid => if k = uid then some t else lockLookup rest uid

/-- Dictionary deletion in the locked_users map (del self.locked_users
of an expired lock). -/
def lockRemove : List (Nat × Nat) → Nat → List (Nat × Nat)
  | [], _ => []
  | (k, t) :: rest, uid =>
    if k = uid then lockRemove rest uid else (k, t) :: lockRemove rest uid

/-- Dictionary assignment in the locked_users map: replace the existing
entry in place, or append a new one. -/
def lockSet : List (Nat × Nat) → Nat → Nat → List (Nat × Nat)
  | [], uid, t => [(uid, t)]
  | (k, v) :: rest, uid, t =>
    if k = uid then (uid, t) :: rest else (k, v) :: lockSet rest uid t

/-- Error message raised for a still-locked user (place_bet and
withdraw_money). -/
def lockedMsg : String := "User is temporarily locked due to withdrawal action"

/-- All bets placed on the given event (select Bet where event_id). -/
def eventBets : List Bet → Nat → List Bet
  | [], _ => []
  | b :: bs, eid =>
    if b.event_id = eid then b :: eventBets bs eid else eventBets bs eid

/-- Add an outcome to the list of outcome_stats keys if it is new
(Python dict keys form in first-occurrence order). -/
def addOutcome (acc : List String) (o : String) : List String :=
  if o ∈ acc then acc else acc ++ [o]

/-- First-occurrence-ordered list of the distinct predicted outcomes of
a list of bets (the keys of outcome_stats). -/
def betOutcomes (bets : List Bet) : List String :=
  bets.foldl (fun acc b => addOutcome acc b.predicted_outcome) []

/-- Total amount staked on one outcome among the given bets (the amount
accumulated in outcome_stats for that outcome). -/
def stakedOn (bets : List Bet) (o : String) : ℚ :=
  (bets.filter (fun b => b.predicted_outcome == o)).foldl (fun s b => s + b.amount) 0

/-- total_amount: the sum of the staked amounts across all outcomes. -/
def outcomeTotal (bets : List Bet) : ℚ :=
  (betOutcomes bets).foldl (fun s o => s + stakedOn bets o) 0

/-- Odds assigned to one outcome: inverse proportion with bookie margin
and a hard floor of 1.1 when money is staked on it, default 2.0
otherwise. -/
def oddsValue (total amt : ℚ) : ℚ :=
  if 0 < amt then max (total / amt * (1 - bookie_margin)) (11 / 10) else 2

/-- Association-list lookup for an odds dictionary. -/
def alookup : List (String × ℚ) → String → Option ℚ
  | [], _ => none
  | (k, v) :: rest, key => if k = key then some v else alookup rest key

/-- Insert a default value for a standard outcome key when it is
missing from the odds dictionary. -/
def backfill (odds : List (String × ℚ)) (k : String) (v : ℚ) : List (String × ℚ) :=
  match alookup odds k with
  | some _ => odds
  | none => odds ++ [(k, v)]

/-- calculate_odds_based_on_bets of src/services/betting_service.py:
fixed defaults when the event has no bets, otherwise inverse-proportion
odds per outcome with the margin and the 1.1 floor, the three standard
outcome keys backfilled with their defaults when absent. -/
def calculate_odds_based_on_bets (bets : List Bet) (event_id : Nat) : List (String × ℚ) :=
  if (eventBets bets event_id).isEmpty then
    [("team_a_won", 2), ("team_b_won", 2), ("draw", 3)]
  else
    backfill (backfill (backfill
      ((betOutcomes (eventBets bets event_id)).map (fun o =>
        (o, oddsValue (outcomeTotal (eventBets bets event_id))
              (stakedOn (eventBets bets event_id) o))))
      "team_a_won" 2) "team_b_won" 2) "draw" 3

/-- The two mutation lines of place_bet on the fetched user row: debit
the amount from the balance and add it to total_deposited. -/
def betDebit (amount : ℚ) (u : User) : User :=
  { u with balance := u.balance - amount, total_deposited := u.total_deposited + amount }

/-- Steps 2-6 of place_bet, after the withdrawal-lock check: look up the
user, check the balance, look up the event, recompute the odds, create
the bet, debit the balance, bump total_deposited and the running
service deposit. -/
def place_bet_unlocked (s : BettingService) (user_id event_id : Nat)
    (amount : ℚ) (predicted_outcome : String) : BettingService × Except String Bet :=
  match findUser s.users user_id with
  | none => (s, Except.error "User not found")
  | some user =>
    if user.balance < amount then (s, Except.error "Insufficient balance")
    else
      match findEvent s.events event_id with
      | none => (s, Except.error "Event is not active for betting")
      | some ev =>
        if ev.is_active = false ∨ ev.is_finished = true then
          (s, Except.error "Event is not active for betting")
        else
          let current_odds := calculate_odds_based_on_bets s.bets event_id
          match alookup current_odds predicted_outcome with
          | none => (s, Except.error ("Invalid outcome: " ++ predicted_outcome))
          | some od =>
            let bet : Bet :=
              { id := s.bets.length, user_id := user_id, event_id := event_id,
                amount := amount, odds := od, predicted_outcome := predicted_outcome,
                is_won := none, payout := 0, resolved_at := none }
            ({ s with
                users := updateUser s.users user_id (betDebit amount),
                bets := s.bets ++ [bet],
                total_service_deposit := s.total_service_deposit + amount },
             Except.ok bet)

/-- place_bet of src/services/betting_service.py: reject while the
withdrawal lock is active, clear an expired lock, then proceed with the
unlocked steps. -/
def place_bet (s : BettingService) (now : Nat) (user_id event_id : Nat)
    (amount : ℚ) (predicted_outcome : String) : BettingService × Except String Bet :=
  match lockLookup s.locked_users user_id with
  | some t =>
    if now < t then (s, Except.error lockedMsg)
    else place_bet_unlocked { s with locked_users := lockRemove s.locked_users user_id }
      user_id event_id amount predicted_outcome
  | none => place_bet_unlocked s user_id event_id amount predicted_outcome

/-- Credit an amount to the balance of the user with the given id. -/
def creditUser (users : List User) (uid : Nat) (amt : ℚ) : List User :=
  updateUser users uid (fun u => { u with balance := u.balance + amt })

/-- One iteration of the resolve_event loop, restricted to its effect on
the user table and the running service deposit: a winning bet credits
its payout to the bettor and subtracts it from the deposit. -/
def settleBet (actual : String) (acc : List User × ℚ) (b : Bet) : List User × ℚ :=
  if b.predicted_outcome = actual then
    (creditUser acc.1 b.user_id (b.amount * b.odds), acc.2 - b.amount * b.odds)
  else acc

/-- One iteration of the resolve_event loop, restricted to its effect on
the bet row itself: won with payout = amount x odds, or lost with payout
0, the resolution time stamped either way; bets of other events are
untouched. -/
def resolveBet (eid : Nat) (actual : String) (now : Nat) (b : Bet) : Bet :=
  if b.event_id = eid then
    if b.predicted_outcome = actual then
      { b with is_won := some true, payout := b.amount * b.odds, resolved_at := some now }
    else
      { b with is_won := some false, payout := 0, resolved_at := some now }
  else b

/-- resolve_event of src/services/betting_service.py: mark the event
inactive, finished and record the result, then walk the bets of the
event, crediting winners and stamping every bet. -/
def resolve_event (s : BettingService) (now : Nat) (event_id : Nat)
    (actual_result : String) : BettingService × Except String Unit :=
  match findEvent s.events event_id with
  | none => (s, Except.error "Event not found")
  | some _ =>
    let events := updateEvent s.events event_id (fun e =>
      { e with is_active := false, is_finished := true, result := some actual_result })
    let settled := (eventBets s.bets event_id).foldl (settleBet actual_result)
      (s.users, s.total_service_deposit)
    ({ users := settled.1, events := events,
       bets := s.bets.map (resolveBet event_id actual_result now),
       locked_users := s.locked_users,
       total_service_deposit := settled.2 }, Except.ok ())

/-- Acknowledgment returned by a successful withdraw_money call. -/
structure WithdrawAck where
  status : String
  lock_duration : Nat
deriving Repr, DecidableEq

/-- withdraw_money of src/services/betting_service.py: reject while the
lock is active, clear an expired lock, then set a fresh lock expiring 30
seconds from now; the amount is accepted but never used and no balance
is touched. -/
def withdraw_money (s : BettingService) (now : Nat) (user_id : Nat) (amount : ℚ) :
    BettingService × Except String WithdrawAck :=
  match lockLookup s.locked_users user_id with
  | some t =>
    if now < t then (s, Except.error lockedMsg)
    else
      ({ s with locked_users :=
          lockSet (lockRemove s.locked_users user_id) user_id (now + withdrawal_lock_duration) },
       Except.ok { status := "withdrawal_initiated", lock_duration := withdrawal_lock_duration })
  | none =>
    ({ s with locked_users := lockSet s.locked_users user_id (now + withdrawal_lock_duration) },
     Except.ok { status := "withdrawal_initiated", lock_duration := withdrawal_lock_duration })

/-- A bearer token as the auth service sees it.  Modelled from the spec
and the documented behaviour of the third-party JWT library used by
src/services/auth_service.py: a token carries an optional subject claim,
an optional role claim and an expiry time, and decoding fails exactly
when the token is malformed, its signature does not verify, or its
expiry has passed. -/
structure Token where
  sub : Option String
  role : Option String
  exp : Nat
  sig_valid : Bool
  well_formed : Bool
deriving Repr, DecidableEq

/-- Modelled from the spec: jwt.decode verifies the signature and the
expiry and returns the payload, raising JWTError (here: none) on a
malformed token, a bad signature or an expired token. -/
def jwt_decode (t : Token) (now : Nat) : Option Token :=
  if t.well_formed && t.sig_valid && decide (now < t.exp) then some t else none

/-- get_current_user_role of src/services/auth_service.py: decode the
token, then return the role claim only when both the subject and the
role claims are present; any decode failure or missing claim yields
none. -/
def get_current_user_role (t : Token) (now : Nat) : Option String :=
  match jwt_decode t now with
  | none => none
  | some payload =>
    match payload.sub, payload.role with
    | some _, some r => some r
    | _, _ => none

/-- get_current_user of src/api/router.py: an absent credential or a
token that yields no role is rejected as unauthenticated (none); a token
with a role passes it through. -/
def get_current_user (cred : Option Token) (now : Nat) : Option String :=
  match cred with
  | none => none
  | some t =>
    match get_current_user_role t now with
    | none => none
    | some r => some r

/-- get_admin_analytics of src/services/betting_service.py: the margin,
the running service deposit, the count of locked users, and three
placeholder zeros. -/
structure AdminAnalytics where
  bookie_margin : ℚ
  total_service_deposit : ℚ
  locked_users_count : Nat
  active_events_count : Nat
  total_bets_placed : Nat
  total_payouts : ℚ
deriving Repr, DecidableEq

def get_admin_analytics (s : BettingService) : AdminAnalytics :=
  { bookie_margin := bookie_margin,
    total_service_deposit := s.total_service_deposit,
    locked_users_count := s.locked_users.length,
    active_events_count := 0,
    total_bets_placed := 0,
    total_payouts := 0 }

/-- Sum of all user balances (func.sum over User.balance, null for an
empty table coalesced to 0). -/
def sumBalances (users : List User) : ℚ :=
  users.foldl (fun acc u => acc + u.balance) 0

/-- Sum of all total_deposited values. -/
def sumDeposited (users : List User) : ℚ :=
  users.foldl (fun acc u => acc + u.total_deposited) 0

/-- The response body the dashboard summary endpoint is written to
produce: the three table counts, the two sums, and the betting engine
analytics snapshot. -/
structure DashboardSummary where
  total_users : Nat
  total_events : Nat
  total_bets : Nat
  total_user_balances : ℚ
  total_deposited_by_users : ℚ
  service_analytics : AdminAnalytics
deriving Repr, DecidableEq

/-- The aggregation the body of get_admin_dashboard spells out. -/
def dashboard_summary (s : BettingService) : DashboardSummary :=
  { total_users := s.users.length,
    total_events := s.events.length,
    total_bets := s.bets.length,
    total_user_balances := sumBalances s.users,
    total_deposited_by_users := sumDeposited s.users,
    service_analytics := get_admin_analytics s }

/-- Names bound at module level in src/admin/dashboard.py: its imports
(from-imports bind only the imported names, not the package name) and
its module-level definitions. -/
def dashboardModuleNames : List String :=
  ["APIRouter", "Depends", "Dict", "List", "AsyncSession", "select", "func",
   "selectinload", "joinedload", "datetime", "timedelta", "AsyncSessionLocal",
   "User", "Event", "Bet", "betting_service", "router", "get_db",
   "get_admin_dashboard", "get_all_users", "get_all_events", "get_all_bets",
   "get_detailed_analytics"]

/-- get_admin_dashboard of src/admin/dashboard.py: its first statement
evaluates the attribute access sqlalchemy.select, so the handler returns
its summary only if the name sqlalchemy is bound in the module; it is
not, and every request raises NameError instead. -/
def get_admin_dashboard (s : BettingService) : Except String DashboardSummary :=
  if dashboardModuleNames.contains "sqlalchemy" then
    Except.ok (dashboard_summary s)
  else
    Except.error "NameError: name sqlalchemy is not defined"

/-- Sum of the payouts of the given bets that predicted the actual
result and belong to the given user. -/
def winningsFor : List Bet → String → Nat → ℚ
  | [], _, _ => 0
  | b :: bs, actual, uid =>
    (if b.predicted_outcome = actual ∧ b.user_id = uid then b.amount * b.odds else 0)
      + winningsFor bs actual uid

/-! Lemmas about lookups and updates. -/

theorem findUser_updateUser (users : List User) (uid uid2 : Nat) (f : User → User)
    (hf : ∀ u, (f u).id = u.id) :
    findUser (updateUser users uid2 f) uid
      = (findUser users uid).map (fun u => if uid = uid2 then f u else u) := by
  induction users with
  | nil => rfl
  | cons u us ih =>
    by_cases h2 : u.id = uid2
    · by_cases h1 : u.id = uid
      · simp [findUser, updateUser, h1, h2, hf, h1 ▸ h2]
      · have h3 : ¬ uid2 = uid := fun h => h1 (h2.trans h)
        simp [findUser, updateUser, h1, h2, h3, hf, ih]
    · by_cases h1 : u.id = uid
      · have : ¬ uid = uid2 := fun h => h2 (h1.trans h)
        simp [findUser, updateUser, h1, h2, this]
      · simp [findUser, updateUser, h1, h2, ih]

theorem findEvent_updateEvent (events : List Event) (eid : Nat) (f : Event → Event)
    (hf : ∀ e, (f e).id = e.id) :
    findEvent (updateEvent events eid f) eid = (findEvent events eid).map f := by
  induction events with
  | nil => rfl
  | cons e es ih =>
    by_cases h : e.id = eid
    · simp [findEvent, updateEvent, h, hf]
    · simp [findEvent, updateEvent, h, ih]

theorem balanceOf_creditUser (users : List User) (uid uid2 : Nat) (amt : ℚ) :
    balanceOf (creditUser users uid2 amt) uid
      = (balanceOf users uid).map (fun x => x + if uid = uid2 then amt else 0) := by
  have h := findUser_updateUser users uid uid2
    (fun u => { u with balance := u.balance + amt }) (fun _ => rfl)
  unfold balanceOf creditUser
  rw [h]
  cases findUser users uid with
  | none => rfl
  | some u => by_cases h : uid = uid2 <;> simp [h]

theorem balanceOf_of_findUser (users : List User) (uid : Nat) (u : User)
    (hu : findUser users uid = some u) : balanceOf users uid = some u.balance := by
  simp [balanceOf, hu]

/-! Lemmas about the lock map. -/

theorem lockLookup_lockSet_self (l : List (Nat × Nat)) (uid t : Nat) :
    lockLookup (lockSet l uid t) uid = some t := by
  induction l with
  | nil => simp [lockSet, lockLookup]
  | cons p rest ih =>
    by_cases h : p.1 = uid
    · simp [lockSet, lockLookup, h]
    · simp [lockSet, lockLookup, h, ih]

theorem lockLookup_lockRemove_self (l : List (Nat × Nat)) (uid : Nat) :
    lockLookup (lockRemove l uid) uid = none := by
  induction l with
  | nil => rfl
  | cons p rest ih =>
    by_cases h : p.1 = uid
    · simp [lockRemove, h, ih]
    · simp [lockRemove, lockLookup, h, ih]

theorem place_bet_unlocked_locked_users (s : BettingService) (uid eid : Nat)
    (amount : ℚ) (o : String) :
    (place_bet_unlocked s uid eid amount o).1.locked_users = s.locked_users := by
  unfold place_bet_unlocked
  cases findUser s.users uid with
  | none => rfl
  | some u =>
    by_cases hb : u.balance < amount
    · simp [hb]
    · simp only [if_neg hb]
      cases findEvent s.events eid with
      | none => rfl
      | some ev =>
        by_cases hev : ev.is_active = false ∨ ev.is_finished = true
        · simp [hev]
        · simp only [if_neg hev]
          cases alookup (calculate_odds_based_on_bets s.bets eid) o <;> rfl

/-! Lemmas about the odds dictionary. -/

theorem alookup_append_of_some (l l2 : List (String × ℚ)) (k : String) (v : ℚ)
    (h : alookup l k = some v) : alookup (l ++ l2) k = some v := by
  induction l with
  | nil => simp [alookup] at h
  | cons p rest ih =>
    obtain ⟨k0, v0⟩ := p
    by_cases hk : k0 = k
    · simpa [alookup, hk] using h
    · simp only [alookup, if_neg hk] at h
      simp only [List.cons_append, alookup, if_neg hk]
      exact ih h

theorem alookup_backfill_of_some (l : List (String × ℚ)) (k k2 : String) (v v2 : ℚ)
    (h : alookup l k = some v) : alookup (backfill l k2 v2) k = some v := by
  unfold backfill
  cases alookup l k2 with
  | none => exact alookup_append_of_some l [(k2, v2)] k v h
  | some _ => exact h

theorem alookup_append_of_none (l l2 : List (String × ℚ)) (k : String)
    (h : alookup l k = none) : alookup (l ++ l2) k = alookup l2 k := by
  induction l with
  | nil => rfl
  | cons p rest ih =>
    obtain ⟨k0, v0⟩ := p
    by_cases hk : k0 = k
    · simp [alookup, hk] at h
    · simp only [alookup, if_neg hk] at h
      simp only [List.cons_append, alookup, if_neg hk]
      exact ih h

theorem alookup_backfill_self_isSome (l : List (String × ℚ)) (k : String) (v : ℚ) :
    (alookup (backfill l k v) k).isSome := by
  unfold backfill
  cases h : alookup l k with
  | some w => simp [h]
  | none =>
    rw [alookup_append_of_none l [(k, v)] k h]
    simp [alookup]

theorem alookup_isSome_backfill (l : List (String × ℚ)) (k k2 : String) (v2 : ℚ)
    (h : (alookup l k).isSome) : (alookup (backfill l k2 v2) k).isSome := by
  cases hv : alookup l k with
  | none => simp [hv] at h
  | some v => simp [alookup_backfill_of_some l k k2 v v2 hv]

theorem alookup_map_outcome (outs : List String) (fn : String → ℚ) (o : String)
    (ho : o ∈ outs) : alookup (outs.map (fun x => (x, fn x))) o = some (fn o) := by
  induction outs with
  | nil => simp at ho
  | cons x xs ih =>
    by_cases hx : x = o
    · simp [alookup, hx]
    · have : o ∈ xs := by
        rcases List.mem_cons.mp ho with h | h
        · exact absurd h.symm hx
        · exact h
      simp [alookup, hx, ih this]

theorem mem_of_alookup (l : List (String × ℚ)) (k : String) (v : ℚ)
    (h : alookup l k = some v) : (k, v) ∈ l := by
  induction l with
  | nil => simp [alookup] at h
  | cons p rest ih =>
    obtain ⟨k0, v0⟩ := p
    by_cases hk : k0 = k
    · simp only [alookup, if_pos hk] at h
      have h2 := Option.some.inj h
      subst hk
      subst h2
      exact List.mem_cons_self _ _
    · simp only [alookup, if_neg hk] at h
      exact List.mem_cons_of_mem _ (ih h)

theorem mem_backfill (l : List (String × ℚ)) (k : String) (v : ℚ) (p : String × ℚ)
    (h : p ∈ backfill l k v) : p ∈ l ∨ p = (k, v) := by
  unfold backfill at h
  cases hl : alookup l k with
  | some w =>
    rw [hl] at h
    exact Or.inl h
  | none =>
    rw [hl] at h
    rcases List.mem_append.mp h with h | h
    · exact Or.inl h
    · right
      simpa using h

theorem oddsValue_ge (total amt : ℚ) : 11 / 10 ≤ oddsValue total amt := by
  unfold oddsValue
  by_cases h : 0 < amt
  · simp only [if_pos h]
    exact le_max_right _ _
  · simp only [if_neg h]
    norm_num

/-! Lemmas about event resolution. -/

theorem resolveBet_event_id (eid : Nat) (actual : String) (now : Nat) (b : Bet) :
    (resolveBet eid actual now b).event_id = b.event_id := by
  unfold resolveBet
  by_cases he : b.event_id = eid
  · by_cases hp : b.predicted_outcome = actual <;> simp [he, hp]
  · simp [he]

theorem settle_fold_balance (actual : String) (l : List Bet) :
    ∀ (users : List User) (dep : ℚ) (uid : Nat),
    balanceOf (l.foldl (settleBet actual) (users, dep)).1 uid
      = (balanceOf users uid).map (fun x => x + winningsFor l actual uid) := by
  induction l with
  | nil =>
    intro users dep uid
    simp only [List.foldl_nil, winningsFor]
    cases balanceOf users uid <;> simp
  | cons b bs ih =>
    intro users dep uid
    simp only [List.foldl_cons]
    by_cases hp : b.predicted_outcome = actual
    · simp only [settleBet, if_pos hp]
      rw [ih]
      rw [balanceOf_creditUser]
      cases balanceOf users uid with
      | none => rfl
      | some x =>
        by_cases hu : uid = b.user_id
        · simp [winningsFor, hp, hu, add_assoc]
        · have hu2 : ¬ b.user_id = uid := fun h => hu h.symm
          simp [winningsFor, hp, hu, hu2]
    · simp only [settleBet, if_neg hp]
      rw [ih]
      cases balanceOf users uid with
      | none => rfl
      | some x => simp [winningsFor, hp]

theorem resolve_event_eq_of_find (s : BettingService) (now eid : Nat) (actual : String)
    (ev : Event) (hev : findEvent s.events eid = some ev) :
    resolve_event s now eid actual
      = ({ users := (List.foldl (settleBet actual) (s.users, s.total_service_deposit)
                      (eventBets s.bets eid)).1,
           events := updateEvent s.events eid (fun e =>
             { e with is_active := false, is_finished := true, result := some actual }),
           bets := s.bets.map (resolveBet eid actual now),
           locked_users := s.locked_users,
           total_service_deposit := (List.foldl (settleBet actual)
             (s.users, s.total_service_deposit) (eventBets s.bets eid)).2 },
         Except.ok ()) := by
  unfold resolve_event
  rw [hev]

/-! Claim C2: behaviour of resolve_event on an existing event. -/

/-- What resolving an existing event ev does: it succeeds; the event
becomes inactive, finished, with the actual result recorded; every bet
of the event gets its resolution time stamped, is won with payout
amount x odds exactly when it predicted the actual result and lost with
payout 0 otherwise; bets of other events pass through unchanged; and
every user balance grows by exactly the sum of that user's winning
payouts on the event. -/
def ResolveEventClaim (s : BettingService) (now eid : Nat) (actual : String)
    (ev : Event) : Prop :=
  (resolve_event s now eid actual).2 = Except.ok ()
  ∧ findEvent (resolve_event s now eid actual).1.events eid
      = some { ev with is_active := false, is_finished := true, result := some actual }
  ∧ (∀ b ∈ (resolve_event s now eid actual).1.bets, b.event_id = eid →
      b.resolved_at = some now
      ∧ (b.predicted_outcome = actual → b.is_won = some true ∧ b.payout = b.amount * b.odds)
      ∧ (b.predicted_outcome ≠ actual → b.is_won = some false ∧ b.payout = 0))
  ∧ (∀ b ∈ s.bets, b.event_id ≠ eid → b ∈ (resolve_event s now eid actual).1.bets)
  ∧ (∀ b ∈ (resolve_event s now eid actual).1.bets, b.event_id ≠ eid → b ∈ s.bets)
  ∧ (∀ uid, balanceOf (resolve_event s now eid actual).1.users uid
      = (balanceOf s.users uid).map
          (fun x => x + winningsFor (eventBets s.bets eid) actual uid))

/-- C2: for every existing event and actual result, resolve_event marks
the event inactive and finished, records the result, stamps resolved_at
on every bet of the event, marks exactly the bets predicting the actual
result won with payout = amount x odds and credits each winner, and
marks every other bet of the event lost with payout 0. -/
theorem resolve_event_spec (s : BettingService) (now eid : Nat) (actual : String)
    (ev : Event) (hev : findEvent s.events eid = some ev) :
    ResolveEventClaim s now eid actual ev := by
  unfold ResolveEventClaim
  rw [resolve_event_eq_of_find s now eid actual ev hev]
  refine ⟨rfl, ?_, ?_, ?_, ?_, ?_⟩
  · rw [findEvent_updateEvent s.events eid
        (fun e => { e with is_active := false, is_finished := true, result := some actual })
        (fun _ => rfl), hev]
    rfl
  · intro b hb hbe
    rcases List.mem_map.mp hb with ⟨b0, hb0, rfl⟩
    unfold resolveBet
    have he0 : b0.event_id = eid := by
      rw [← resolveBet_event_id eid actual now b0]
      exact hbe
    by_cases hp : b0.predicted_outcome = actual
    · simp [he0, hp]
    · simp [he0, hp]
  · intro b hb hbe
    refine List.mem_map.mpr ⟨b, hb, ?_⟩
    simp [resolveBet, hbe]
  · intro b hb hbe
    rcases List.mem_map.mp hb with ⟨b0, hb0, rfl⟩
    have he0 : ¬ b0.event_id = eid := by
      rw [← resolveBet_event_id eid actual now b0]
      exact hbe
    simpa [resolveBet, he0] using hb0
  · intro uid
    exact settle_fold_balance actual (eventBets s.bets eid) s.users s.total_service_deposit uid

def c2u1 : User :=
  { id := 1, username := "alice", email := "alice@example.com", role := "user",
    balance := 60, total_deposited := 40, is_active := true }

def c2u2 : User :=
  { id := 2, username := "bob", email := "bob@example.com", role := "user",
    balance := 100, total_deposited := 30, is_active := true }

def c2ev : Event :=
  { id := 1, name := "Football Match: Team A vs Team B", sport_type := "football",
    is_active := true, is_finished := false, result := none }

def c2s : BettingService :=
  { users := [c2u1, c2u2], events := [c2ev],
    bets := [{ id := 0, user_id := 1, event_id := 1, amount := 40, odds := 2,
               predicted_outcome := "team_a_won", is_won := none, payout := 0,
               resolved_at := none },
             { id := 1, user_id := 2, event_id := 1, amount := 30, odds := 2,
               predicted_outcome := "team_b_won", is_won := none, payout := 0,
               resolved_at := none }],
    locked_users := [], total_service_deposit := 70 }

/-- Witness for C2 at a concrete two-bet state. -/
theorem resolve_event_spec_witness :
    findEvent c2s.events 1 = some c2ev ∧ ResolveEventClaim c2s 7 1 "team_a_won" c2ev :=
  ⟨by simp [c2s, c2ev, findEvent],
   resolve_event_spec c2s 7 1 "team_a_won" c2ev (by simp [c2s, c2ev, findEvent])⟩

/-! Claim C3: the resolution transition happens, but nothing guards an
already-finished event. -/

def c3s : BettingService :=
  { users := [{ id := 1, username := "alice", email := "alice@example.com",
                role := "user", balance := 60, total_deposited := 40, is_active := true }],
    events := [{ id := 1, name := "Football Match: Team A vs Team B",
                 sport_type := "football", is_active := true, is_finished := false,
                 result := none }],
    bets := [{ id := 0, user_id := 1, event_id := 1, amount := 40, odds := 2,
               predicted_outcome := "team_a_won", is_won := none, payout := 0,
               resolved_at := none }],
    locked_users := [], total_service_deposit := 40 }

/-- The state of c3s once its event has been resolved to team_a_won:
the event is finished with that result and the winner holds 140. -/
def c3s1 : BettingService := (resolve_event c3s 5 1 "team_a_won").1

/-- Counterexample to C3 as stated: on an already-finished event with
result team_a_won and its payouts credited, a second resolve_event call
succeeds, overwrites the stored result with team_b_won, and a repeat of
the original result credits the winning payout a second time (balance
140 becomes 220). -/
theorem resolve_event_refires :
    (findEvent c3s1.events 1).map Event.is_finished = some true
    ∧ (findEvent c3s1.events 1).map Event.result = some (some "team_a_won")
    ∧ balanceOf c3s1.users 1 = some 140
    ∧ (resolve_event c3s1 6 1 "team_b_won").2 = Except.ok ()
    ∧ (findEvent (resolve_event c3s1 6 1 "team_b_won").1.events 1).map Event.result
        = some (some "team_b_won")
    ∧ balanceOf (resolve_event c3s1 6 1 "team_a_won").1.users 1 = some 220 := by
  refine ⟨?_, ?_, ?_, ?_, ?_, ?_⟩
  · simp [c3s1, c3s, resolve_event, findEvent, updateEvent, eventBets, settleBet,
      creditUser, updateUser, resolveBet]
  · simp [c3s1, c3s, resolve_event, findEvent, updateEvent, eventBets, settleBet,
      creditUser, updateUser, resolveBet]
  · simp only [c3s1, c3s, resolve_event, findEvent, updateEvent, eventBets, settleBet,
      creditUser, updateUser, resolveBet, balanceOf]
    norm_num [findUser]
  · simp [c3s1, c3s, resolve_event, findEvent, updateEvent, eventBets, settleBet,
      creditUser, updateUser, resolveBet]
  · simp [c3s1, c3s, resolve_event, findEvent, updateEvent, eventBets, settleBet,
      creditUser, updateUser, resolveBet]
  · simp only [c3s1, c3s, resolve_event, findEvent, updateEvent, eventBets, settleBet,
      creditUser, updateUser, resolveBet, balanceOf]
    norm_num [findUser]

/-- The amended transition property: resolve_event on an existing event
always succeeds and records inactive + finished + the new result. -/
def ResolveNoGuardClaim (s : BettingService) (now eid : Nat) (actual : String)
    (ev : Event) : Prop :=
  (resolve_event s now eid actual).2 = Except.ok ()
  ∧ findEvent (resolve_event s now eid actual).1.events eid
      = some { ev with is_active := false, is_finished := true, result := some actual }

/-- C3 (amended): an event transitions to inactive + finished with the
result recorded whenever resolve_event is applied to it, but the code
has no already-finished guard: the theorem holds for every stored event,
finished or not, so a second resolution succeeds and overwrites the
result (and, per the counterexample, re-credits payouts). -/
theorem resolve_event_no_guard (s : BettingService) (now eid : Nat) (actual : String)
    (ev : Event) (hev : findEvent s.events eid = some ev) :
    ResolveNoGuardClaim s now eid actual ev := by
  unfold ResolveNoGuardClaim
  rw [resolve_event_eq_of_find s now eid actual ev hev]
  refine ⟨rfl, ?_⟩
  rw [findEvent_updateEvent s.events eid
      (fun e => { e with is_active := false, is_finished := true, result := some actual })
      (fun _ => rfl), hev]
  rfl

/-- Witness for the amended C3, instantiated at an already-finished
event to exhibit the absent guard. -/
theorem resolve_event_no_guard_witness :
    findEvent c3s1.events 1
      = some { id := 1, name := "Football Match: Team A vs Team B",
               sport_type := "football", is_active := false, is_finished := true,
               result := some "team_a_won" }
    ∧ ResolveNoGuardClaim c3s1 6 1 "team_b_won"
        { id := 1, name := "Football Match: Team A vs Team B",
          sport_type := "football", is_active := false, is_finished := true,
          result := some "team_a_won" } :=
  ⟨by simp [c3s1, c3s, resolve_event, findEvent, updateEvent],
   resolve_event_no_guard c3s1 6 1 "team_b_won" _
     (by simp [c3s1, c3s, resolve_event, findEvent, updateEvent])⟩

/-! Claims C1 and C10: behaviour of place_bet. -/

theorem place_bet_unlocked_eq_ok (s : BettingService) (uid eid : Nat) (amount : ℚ)
    (outcome : String) (u : User) (ev : Event) (od : ℚ)
    (hu : findUser s.users uid = some u)
    (hba : ¬ u.balance < amount)
    (hev : findEvent s.events eid = some ev)
    (hact : ev.is_active = true) (hfin : ev.is_finished = false)
    (hod : alookup (calculate_odds_based_on_bets s.bets eid) outcome = some od) :
    place_bet_unlocked s uid eid amount outcome
      = ({ s with
            users := updateUser s.users uid (betDebit amount),
            bets := s.bets ++ [{ id := s.bets.length, user_id := uid, event_id := eid,
                                 amount := amount, odds := od, predicted_outcome := outcome,
                                 is_won := none, payout := 0, resolved_at := none }],
            total_service_deposit := s.total_service_deposit + amount },
         Except.ok { id := s.bets.length, user_id := uid, event_id := eid,
                     amount := amount, odds := od, predicted_outcome := outcome,
                     is_won := none, payout := 0, resolved_at := none }) := by
  have hcond : ¬ (ev.is_active = false ∨ ev.is_finished = true) := by
    simp [hact, hfin]
  simp only [place_bet_unlocked, hu, if_neg hba, hev, if_neg hcond, hod]

/-- What a successful bet placement does to the money fields: the bet is
accepted, the balance is debited by exactly the amount, total_deposited
and the running service deposit grow by exactly the amount, and one bet
row is appended. -/
def PlaceBetOkClaim (s : BettingService) (now uid eid : Nat) (amount : ℚ)
    (outcome : String) (u : User) : Prop :=
  (∃ b, (place_bet s now uid eid amount outcome).2 = Except.ok b)
  ∧ balanceOf (place_bet s now uid eid amount outcome).1.users uid
      = some (u.balance - amount)
  ∧ depositedOf (place_bet s now uid eid amount outcome).1.users uid
      = some (u.total_deposited + amount)
  ∧ (place_bet s now uid eid amount outcome).1.total_service_deposit
      = s.total_service_deposit + amount
  ∧ (place_bet s now uid eid amount outcome).1.bets.length = s.bets.length + 1

/-- What a bet exceeding the balance does: the business-rule rejection,
with the whole state unchanged. -/
def PlaceBetInsufficientClaim (s : BettingService) (now uid eid : Nat) (amount : ℚ)
    (outcome : String) : Prop :=
  (place_bet s now uid eid amount outcome).2 = Except.error "Insufficient balance"
  ∧ (place_bet s now uid eid amount outcome).1 = s

/-- C1: for an unlocked, existing user, a successful place_bet of amount
A debits the balance by exactly A, adds A to total_deposited and to the
running service deposit, and stores one new bet; while an amount
exceeding the balance is rejected with Insufficient balance and leaves
the state (balance, total_deposited, bets) unchanged. -/
theorem place_bet_balance_spec (s : BettingService) (now uid eid : Nat) (amount : ℚ)
    (outcome : String) (u : User)
    (hl : lockLookup s.locked_users uid = none)
    (hu : findUser s.users uid = some u) :
    (∀ ev od, amount ≤ u.balance → findEvent s.events eid = some ev →
      ev.is_active = true → ev.is_finished = false →
      alookup (calculate_odds_based_on_bets s.bets eid) outcome = some od →
      PlaceBetOkClaim s now uid eid amount outcome u)
    ∧ (u.balance < amount → PlaceBetInsufficientClaim s now uid eid amount outcome) := by
  have hred : place_bet s now uid eid amount outcome
      = place_bet_unlocked s uid eid amount outcome := by
    simp only [place_bet, hl]
  constructor
  · intro ev od hba hev hact hfin hod
    unfold PlaceBetOkClaim
    rw [hred, place_bet_unlocked_eq_ok s uid eid amount outcome u ev od hu
      (not_lt.mpr hba) hev hact hfin hod]
    refine ⟨⟨_, rfl⟩, ?_, ?_, rfl, by simp⟩
    · unfold balanceOf
      rw [findUser_updateUser s.users uid uid (betDebit amount) (fun _ => rfl), hu]
      simp [betDebit]
    · unfold depositedOf
      rw [findUser_updateUser s.users uid uid (betDebit amount) (fun _ => rfl), hu]
      simp [betDebit]
  · intro hba
    unfold PlaceBetInsufficientClaim
    rw [hred]
    simp [place_bet_unlocked, hu, hba]

def c1u : User :=
  { id := 1, username := "alice", email := "alice@example.com", role := "user",
    balance := 100, total_deposited := 0, is_active := true }

def c1ev : Event :=
  { id := 1, name := "Football Match: Team A vs Team B", sport_type := "football",
    is_active := true, is_finished := false, result := none }

def c1s : BettingService :=
  { users := [c1u], events := [c1ev], bets := [], locked_users := [],
    total_service_deposit := 0 }

/-- Witness for C1: both branches instantiated at a concrete state, once
with an affordable amount (40 of 100) and once with an excessive one
(200 of 100). -/
theorem place_bet_balance_spec_witness :
    lockLookup c1s.locked_users 1 = none
    ∧ findUser c1s.users 1 = some c1u
    ∧ ((∀ ev od, (40 : ℚ) ≤ c1u.balance → findEvent c1s.events 1 = some ev →
        ev.is_active = true → ev.is_finished = false →
        alookup (calculate_odds_based_on_bets c1s.bets 1) "team_a_won" = some od →
        PlaceBetOkClaim c1s 0 1 1 40 "team_a_won" c1u)
      ∧ (c1u.balance < 40 → PlaceBetInsufficientClaim c1s 0 1 1 40 "team_a_won"))
    ∧ ((∀ ev od, (200 : ℚ) ≤ c1u.balance → findEvent c1s.events 1 = some ev →
        ev.is_active = true → ev.is_finished = false →
        alookup (calculate_odds_based_on_bets c1s.bets 1) "team_a_won" = some od →
        PlaceBetOkClaim c1s 0 1 1 200 "team_a_won" c1u)
      ∧ (c1u.balance < 200 → PlaceBetInsufficientClaim c1s 0 1 1 200 "team_a_won")) :=
  ⟨rfl, by simp [c1s, c1u, findUser],
   place_bet_balance_spec c1s 0 1 1 40 "team_a_won" c1u rfl
     (by simp [c1s, c1u, findUser]),
   place_bet_balance_spec c1s 0 1 1 200 "team_a_won" c1u rfl
     (by simp [c1s, c1u, findUser])⟩

/-- What place_bet does for any amount not exceeding the balance, with
no positivity or min/max check: the bet is created with the requested
amount, the balance moves to balance - amount and total_deposited to
total_deposited + amount, and a negative amount therefore strictly
increases the balance. -/
def PlaceBetNoMinClaim (s : BettingService) (now uid eid : Nat) (amount : ℚ)
    (outcome : String) (u : User) (od : ℚ) : Prop :=
  (place_bet s now uid eid amount outcome).2
    = Except.ok { id := s.bets.length, user_id := uid, event_id := eid,
                  amount := amount, odds := od, predicted_outcome := outcome,
                  is_won := none, payout := 0, resolved_at := none }
  ∧ (place_bet s now uid eid amount outcome).1.bets
      = s.bets ++ [{ id := s.bets.length, user_id := uid, event_id := eid,
                     amount := amount, odds := od, predicted_outcome := outcome,
                     is_won := none, payout := 0, resolved_at := none }]
  ∧ balanceOf (place_bet s now uid eid amount outcome).1.users uid
      = some (u.balance - amount)
  ∧ depositedOf (place_bet s now uid eid amount outcome).1.users uid
      = some (u.total_deposited + amount)
  ∧ (amount < 0 → u.balance < u.balance - amount)

/-- C10: place_bet checks only that the amount does not exceed the
balance — there is no positivity check and no check against the
configured min_bet_amount and max_bet_amount — so zero and negative
amounts are accepted, recorded as bets, added to total_deposited, and a
negative amount strictly increases the balance. -/
theorem place_bet_no_min_check (s : BettingService) (now uid eid : Nat) (amount : ℚ)
    (outcome : String) (u : User) (ev : Event) (od : ℚ)
    (hl : lockLookup s.locked_users uid = none)
    (hu : findUser s.users uid = some u)
    (hba : amount ≤ u.balance)
    (hev : findEvent s.events eid = some ev)
    (hact : ev.is_active = true) (hfin : ev.is_finished = false)
    (hod : alookup (calculate_odds_based_on_bets s.bets eid) outcome = some od) :
    PlaceBetNoMinClaim s now uid eid amount outcome u od := by
  have hred : place_bet s now uid eid amount outcome
      = place_bet_unlocked s uid eid amount outcome := by
    simp only [place_bet, hl]
  unfold PlaceBetNoMinClaim
  rw [hred, place_bet_unlocked_eq_ok s uid eid amount outcome u ev od hu
    (not_lt.mpr hba) hev hact hfin hod]
  refine ⟨rfl, rfl, ?_, ?_, fun hneg => by linarith⟩
  · unfold balanceOf
    rw [findUser_updateUser s.users uid uid (betDebit amount) (fun _ => rfl), hu]
    simp [betDebit]
  · unfold depositedOf
    rw [findUser_updateUser s.users uid uid (betDebit amount) (fun _ => rfl), hu]
    simp [betDebit]

def c10u : User :=
  { id := 1, username := "alice", email := "alice@example.com", role := "user",
    balance := 100, total_deposited := 0, is_active := true }

def c10ev : Event :=
  { id := 1, name := "Football Match: Team A vs Team B", sport_type := "football",
    is_active := true, is_finished := false, result := none }

def c10s : BettingService :=
  { users := [c10u], events := [c10ev], bets := [], locked_users := [],
    total_service_deposit := 0 }

/-- Witness for C10 at the concrete amount -5, which is below the
configured minimum bet amount of 1 and still accepted. -/
theorem place_bet_no_min_check_witness :
    (-5 : ℚ) < min_bet_amount
    ∧ lockLookup c10s.locked_users 1 = none
    ∧ findUser c10s.users 1 = some c10u
    ∧ (-5 : ℚ) ≤ c10u.balance
    ∧ findEvent c10s.events 1 = some c10ev
    ∧ c10ev.is_active = true
    ∧ c10ev.is_finished = false
    ∧ alookup (calculate_odds_based_on_bets c10s.bets 1) "draw" = some 3
    ∧ PlaceBetNoMinClaim c10s 0 1 1 (-5) "draw" c10u 3 :=
  ⟨by norm_num [min_bet_amount], rfl, by simp [c10s, c10u, findUser],
   by norm_num [c10u], by simp [c10s, c10ev, findEvent], rfl, rfl,
   by simp [c10s, calculate_odds_based_on_bets, eventBets, alookup],
   place_bet_no_min_check c10s 0 1 1 (-5) "draw" c10u c10ev 3
     rfl (by simp [c10s, c10u, findUser]) (by norm_num [c10u])
     (by simp [c10s, c10ev, findEvent]) rfl rfl
     (by simp [c10s, calculate_odds_based_on_bets, eventBets, alookup])⟩

/-! Claims C4 and C5: the dynamic odds computation. -/

theorem alookup_map_none (outs : List String) (fn : String → ℚ) (o : String)
    (ho : o ∉ outs) : alookup (outs.map (fun x => (x, fn x))) o = none := by
  induction outs with
  | nil => rfl
  | cons x xs ih =>
    have hx : ¬ x = o := fun h => ho (h ▸ List.mem_cons_self x xs)
    have hxs : o ∉ xs := fun h => ho (List.mem_cons_of_mem x h)
    simp [alookup, hx, ih hxs]

theorem alookup_backfill_none_self (l : List (String × ℚ)) (k : String) (v : ℚ)
    (h : alookup l k = none) : alookup (backfill l k v) k = some v := by
  unfold backfill
  rw [h, alookup_append_of_none l [(k, v)] k h]
  simp [alookup]

theorem alookup_backfill_none_ne (l : List (String × ℚ)) (k k2 : String) (v2 : ℚ)
    (h : alookup l k = none) (hne : k2 ≠ k) :
    alookup (backfill l k2 v2) k = none := by
  unfold backfill
  cases h2 : alookup l k2 with
  | some w => exact h
  | none =>
    rw [alookup_append_of_none l [(k2, v2)] k h]
    simp [alookup, hne]

def c4bets : List Bet :=
  [{ id := 0, user_id := 1, event_id := 1, amount := 100, odds := 2,
     predicted_outcome := "A", is_won := none, payout := 0, resolved_at := none },
   { id := 1, user_id := 2, event_id := 1, amount := 300, odds := 2,
     predicted_outcome := "B", is_won := none, payout := 0, resolved_at := none }]

/-- C4: for every event with bets, each outcome carrying a positive
stake is assigned odds max(total / stake x (1 - margin), 1.1); every
value in the computed odds dictionary is at least 1.1 whatever the
stake distribution; and at stakes 100 on A and 300 on B the computed
odds are exactly 19/5 = 3.8 for A and 19/15 (about 1.2667) for B. -/
theorem odds_formula_spec :
    (∀ (bets : List Bet) (eid : Nat) (o : String),
      o ∈ betOutcomes (eventBets bets eid) →
      0 < stakedOn (eventBets bets eid) o →
      alookup (calculate_odds_based_on_bets bets eid) o
        = some (max (outcomeTotal (eventBets bets eid) / stakedOn (eventBets bets eid) o
            * (1 - bookie_margin)) (11 / 10)))
    ∧ (∀ (bets : List Bet) (eid : Nat) (o : String) (v : ℚ),
      alookup (calculate_odds_based_on_bets bets eid) o = some v → 11 / 10 ≤ v)
    ∧ alookup (calculate_odds_based_on_bets c4bets 1) "A" = some (19 / 5)
    ∧ alookup (calculate_odds_based_on_bets c4bets 1) "B" = some (19 / 15) := by
  have formula : ∀ (bets : List Bet) (eid : Nat) (o : String),
      o ∈ betOutcomes (eventBets bets eid) →
      0 < stakedOn (eventBets bets eid) o →
      alookup (calculate_odds_based_on_bets bets eid) o
        = some (max (outcomeTotal (eventBets bets eid) / stakedOn (eventBets bets eid) o
            * (1 - bookie_margin)) (11 / 10)) := by
    intro bets eid o hmem hpos
    have hne : (eventBets bets eid).isEmpty = false := by
      cases h : eventBets bets eid with
      | nil =>
        rw [h] at hmem
        simp [betOutcomes] at hmem
      | cons b bs => rfl
    unfold calculate_odds_based_on_bets
    rw [hne]
    simp only [Bool.false_eq_true, if_false]
    have hin := alookup_map_outcome (betOutcomes (eventBets bets eid))
      (fun o => oddsValue (outcomeTotal (eventBets bets eid)) (stakedOn (eventBets bets eid) o))
      o hmem
    have h1 := alookup_backfill_of_some _ _ "team_a_won" _ 2 hin
    have h2 := alookup_backfill_of_some _ _ "team_b_won" _ 2 h1
    have h3 := alookup_backfill_of_some _ _ "draw" _ 3 h2
    rw [h3]
    simp only [oddsValue, if_pos hpos]
  refine ⟨formula, ?_, ?_, ?_⟩
  · intro bets eid o v h
    have hmem := mem_of_alookup _ _ _ h
    unfold calculate_odds_based_on_bets at hmem
    by_cases hne : (eventBets bets eid).isEmpty
    · rw [if_pos hne] at hmem
      simp only [List.mem_cons, List.mem_singleton, List.not_mem_nil, or_false,
        Prod.mk.injEq] at hmem
      rcases hmem with ⟨h1, rfl⟩ | ⟨h1, rfl⟩ | ⟨h1, rfl⟩ <;> norm_num
    · rw [if_neg hne] at hmem
      rcases mem_backfill _ _ _ _ hmem with h1 | h1
      · rcases mem_backfill _ _ _ _ h1 with h2 | h2
        · rcases mem_backfill _ _ _ _ h2 with h3 | h3
          · rcases List.mem_map.mp h3 with ⟨x, _, hx⟩
            simp only [Prod.mk.injEq] at hx
            rw [← hx.2]
            exact oddsValue_ge _ _
          · simp only [Prod.mk.injEq] at h3
            rw [h3.2]
            norm_num
        · simp only [Prod.mk.injEq] at h2
          rw [h2.2]
          norm_num
      · simp only [Prod.mk.injEq] at h1
        rw [h1.2]
        norm_num
  · have hpos : 0 < stakedOn (eventBets c4bets 1) "A" := by
      simp [c4bets, eventBets, stakedOn]
    have h := formula c4bets 1 "A" (by decide) hpos
    rw [h]
    have hval : outcomeTotal (eventBets c4bets 1) / stakedOn (eventBets c4bets 1) "A"
        * (1 - bookie_margin) = 19 / 5 := by
      simp [c4bets, eventBets, stakedOn, outcomeTotal, betOutcomes, addOutcome, bookie_margin]
      norm_num
    rw [hval]
    norm_num
  · have hpos : 0 < stakedOn (eventBets c4bets 1) "B" := by
      simp [c4bets, eventBets, stakedOn]
    have h := formula c4bets 1 "B" (by decide) hpos
    rw [h]
    have hval : outcomeTotal (eventBets c4bets 1) / stakedOn (eventBets c4bets 1) "B"
        * (1 - bookie_margin) = 19 / 15 := by
      simp [c4bets, eventBets, stakedOn, outcomeTotal, betOutcomes, addOutcome, bookie_margin]
      norm_num
    rw [hval]
    norm_num

/-- C5: an event with no bets gets exactly the default odds dictionary
with team_a_won at 2.0, team_b_won at 2.0 and draw at 3.0; and for
every event the three standard keys are present in the computed odds,
each one backfilled with its own default whenever it alone is absent
from the actual bets, whatever the other outcomes carry. -/
theorem odds_defaults_spec :
    (∀ (bets : List Bet) (eid : Nat), eventBets bets eid = [] →
      calculate_odds_based_on_bets bets eid
        = [("team_a_won", 2), ("team_b_won", 2), ("draw", 3)])
    ∧ (∀ (bets : List Bet) (eid : Nat),
      (alookup (calculate_odds_based_on_bets bets eid) "team_a_won").isSome
      ∧ (alookup (calculate_odds_based_on_bets bets eid) "team_b_won").isSome
      ∧ (alookup (calculate_odds_based_on_bets bets eid) "draw").isSome)
    ∧ (∀ (bets : List Bet) (eid : Nat),
      "team_a_won" ∉ betOutcomes (eventBets bets eid) →
      alookup (calculate_odds_based_on_bets bets eid) "team_a_won" = some 2)
    ∧ (∀ (bets : List Bet) (eid : Nat),
      "team_b_won" ∉ betOutcomes (eventBets bets eid) →
      alookup (calculate_odds_based_on_bets bets eid) "team_b_won" = some 2)
    ∧ (∀ (bets : List Bet) (eid : Nat),
      "draw" ∉ betOutcomes (eventBets bets eid) →
      alookup (calculate_odds_based_on_bets bets eid) "draw" = some 3) := by
  refine ⟨?_, ?_, ?_, ?_, ?_⟩
  · intro bets eid h
    unfold calculate_odds_based_on_bets
    rw [h]
    rfl
  · intro bets eid
    unfold calculate_odds_based_on_bets
    by_cases hne : (eventBets bets eid).isEmpty
    · rw [if_pos hne]
      refine ⟨rfl, rfl, rfl⟩
    · rw [if_neg hne]
      refine ⟨?_, ?_, ?_⟩
      · exact alookup_isSome_backfill _ _ _ _
          (alookup_isSome_backfill _ _ _ _ (alookup_backfill_self_isSome _ _ _))
      · exact alookup_isSome_backfill _ _ _ _ (alookup_backfill_self_isSome _ _ _)
      · exact alookup_backfill_self_isSome _ _ _
  · intro bets eid ha
    unfold calculate_odds_based_on_bets
    by_cases hne : (eventBets bets eid).isEmpty
    · rw [if_pos hne]
      rfl
    · rw [if_neg hne]
      have hma := alookup_map_none (betOutcomes (eventBets bets eid))
        (fun o => oddsValue (outcomeTotal (eventBets bets eid)) (stakedOn (eventBets bets eid) o))
        "team_a_won" ha
      have s1 := alookup_backfill_none_self _ "team_a_won" 2 hma
      have s2 := alookup_backfill_of_some _ _ "team_b_won" _ 2 s1
      exact alookup_backfill_of_some _ _ "draw" _ 3 s2
  · intro bets eid hb
    unfold calculate_odds_based_on_bets
    by_cases hne : (eventBets bets eid).isEmpty
    · rw [if_pos hne]
      rfl
    · rw [if_neg hne]
      have hmb := alookup_map_none (betOutcomes (eventBets bets eid))
        (fun o => oddsValue (outcomeTotal (eventBets bets eid)) (stakedOn (eventBets bets eid) o))
        "team_b_won" hb
      have s1 := alookup_backfill_none_ne _ "team_b_won" "team_a_won" 2 hmb
        (by decide)
      have s2 := alookup_backfill_none_self _ "team_b_won" 2 s1
      exact alookup_backfill_of_some _ _ "draw" _ 3 s2
  · intro bets eid hd
    unfold calculate_odds_based_on_bets
    by_cases hne : (eventBets bets eid).isEmpty
    · rw [if_pos hne]
      rfl
    · rw [if_neg hne]
      have hmd := alookup_map_none (betOutcomes (eventBets bets eid))
        (fun o => oddsValue (outcomeTotal (eventBets bets eid)) (stakedOn (eventBets bets eid) o))
        "draw" hd
      have s1 := alookup_backfill_none_ne _ "draw" "team_a_won" 2 hmd (by decide)
      have s2 := alookup_backfill_none_ne _ "draw" "team_b_won" 2 s1 (by decide)
      exact alookup_backfill_none_self _ "draw" 3 s2

/-! Claims C6 and C7: the withdrawal lock. -/

/-- What a successful withdrawal does and implies: the acknowledgment
carries the 30-second lock duration; the lock expires exactly 30
seconds after the call; before that instant both another withdrawal and
a bet placement by the same user fail with the temporarily-locked error
and change nothing; from that instant on a withdrawal succeeds again
and re-locks for 30 more seconds, while a bet placement behaves exactly
as on the state with the expired lock cleared, and leaves the user
unlocked. -/
def WithdrawLockClaim (s : BettingService) (now uid : Nat) (amt : ℚ) : Prop :=
  (withdraw_money s now uid amt).2
      = Except.ok { status := "withdrawal_initiated", lock_duration := 30 }
  ∧ lockLookup (withdraw_money s now uid amt).1.locked_users uid = some (now + 30)
  ∧ (∀ (t : Nat) (amt2 : ℚ), t < now + 30 →
      withdraw_money (withdraw_money s now uid amt).1 t uid amt2
        = ((withdraw_money s now uid amt).1, Except.error lockedMsg))
  ∧ (∀ (t eid : Nat) (a : ℚ) (o : String), t < now + 30 →
      place_bet (withdraw_money s now uid amt).1 t uid eid a o
        = ((withdraw_money s now uid amt).1, Except.error lockedMsg))
  ∧ (∀ (t : Nat) (amt2 : ℚ), now + 30 ≤ t →
      (withdraw_money (withdraw_money s now uid amt).1 t uid amt2).2
          = Except.ok { status := "withdrawal_initiated", lock_duration := 30 }
      ∧ lockLookup
          (withdraw_money (withdraw_money s now uid amt).1 t uid amt2).1.locked_users uid
          = some (t + 30))
  ∧ (∀ (t eid : Nat) (a : ℚ) (o : String), now + 30 ≤ t →
      place_bet (withdraw_money s now uid amt).1 t uid eid a o
          = place_bet_unlocked
              { (withdraw_money s now uid amt).1 with
                  locked_users :=
                    lockRemove (withdraw_money s now uid amt).1.locked_users uid }
              uid eid a o
      ∧ lockLookup
          (place_bet (withdraw_money s now uid amt).1 t uid eid a o).1.locked_users uid
          = none)

/-- C6: withdraw_money for an unlocked user locks that user until
exactly 30 seconds after the call; within the window a second
withdrawal and a bet placement fail with the temporarily-locked error;
once the window has elapsed the expired lock is cleared, bet placement
proceeds as if unlocked, and a withdrawal succeeds and re-locks. -/
theorem withdraw_lock_spec (s : BettingService) (now uid : Nat) (amt : ℚ)
    (h : lockLookup s.locked_users uid = none) : WithdrawLockClaim s now uid amt := by
  have hw : withdraw_money s now uid amt
      = ({ s with locked_users := lockSet s.locked_users uid (now + 30) },
         Except.ok { status := "withdrawal_initiated", lock_duration := 30 }) := by
    simp only [withdraw_money, h, withdrawal_lock_duration]
  unfold WithdrawLockClaim
  rw [hw]
  refine ⟨rfl, lockLookup_lockSet_self s.locked_users uid (now + 30), ?_, ?_, ?_, ?_⟩
  · intro t amt2 ht
    simp only [withdraw_money, lockLookup_lockSet_self, if_pos ht]
  · intro t eid a o ht
    simp only [place_bet, lockLookup_lockSet_self, if_pos ht]
  · intro t amt2 ht
    have hge : ¬ t < now + 30 := not_lt.mpr ht
    simp only [withdraw_money, lockLookup_lockSet_self, if_neg hge,
      withdrawal_lock_duration]
    exact ⟨trivial, trivial⟩
  · intro t eid a o ht
    have hge : ¬ t < now + 30 := not_lt.mpr ht
    simp only [place_bet, lockLookup_lockSet_self, if_neg hge]
    refine ⟨trivial, ?_⟩
    rw [place_bet_unlocked_locked_users]
    exact lockLookup_lockRemove_self _ uid

def c6s : BettingService :=
  { users := [{ id := 1, username := "alice", email := "alice@example.com",
                role := "user", balance := 100, total_deposited := 0,
                is_active := true }],
    events := [], bets := [], locked_users := [], total_service_deposit := 0 }

/-- Witness for C6 at a concrete unlocked user. -/
theorem withdraw_lock_spec_witness :
    lockLookup c6s.locked_users 1 = none ∧ WithdrawLockClaim c6s 100 1 50 :=
  ⟨rfl, withdraw_lock_spec c6s 100 1 50 rfl⟩

/-- C7: withdraw_money never touches the user table, the events, the
bets or the running service deposit — its only effect is on the
in-memory lock map — and when it succeeds the acknowledgment carries
the 30-second lock duration (its only other outcome being the
temporarily-locked rejection). -/
theorem withdraw_frame_spec (s : BettingService) (now uid : Nat) (amt : ℚ) :
    (withdraw_money s now uid amt).1.users = s.users
    ∧ (withdraw_money s now uid amt).1.events = s.events
    ∧ (withdraw_money s now uid amt).1.bets = s.bets
    ∧ (withdraw_money s now uid amt).1.total_service_deposit = s.total_service_deposit
    ∧ ((withdraw_money s now uid amt).2
        = Except.ok { status := "withdrawal_initiated", lock_duration := 30 }
      ∨ (withdraw_money s now uid amt).2 = Except.error lockedMsg) := by
  unfold withdraw_money
  cases hl : lockLookup s.locked_users uid with
  | none => exact ⟨rfl, rfl, rfl, rfl, Or.inl rfl⟩
  | some t =>
    by_cases ht : now < t
    · simp [if_pos ht]
    · simp [if_neg ht, withdrawal_lock_duration]

/-! Claim C8: token decoding and the authorization dependency. -/

/-- C8: decoding yields the role claim exactly when the token is well
formed, its signature verifies, its expiry has not passed and the
subject claim is present (a missing role claim then still yields none,
since the result is the role claim itself); in every other case the
result is none, and the authorization dependency maps a token without a
role and an absent token to the same unauthenticated rejection. -/
theorem token_role_spec (t : Token) (now : Nat) :
    get_current_user_role t now
      = (if t.well_formed = true ∧ t.sig_valid = true ∧ now < t.exp ∧ t.sub.isSome
         then t.role else none)
    ∧ get_current_user (some t) now = get_current_user_role t now
    ∧ get_current_user none now = none := by
  obtain ⟨sub, role, exp, sv, wf⟩ := t
  refine ⟨?_, ?_, rfl⟩
  · cases wf <;> cases sv <;> by_cases h : now < exp <;> cases sub <;> cases role <;>
      simp [get_current_user_role, jwt_decode, h]
  · unfold get_current_user
    cases hr : get_current_user_role ⟨sub, role, exp, sv, wf⟩ now <;> simp [hr]

/-! Claim C9: the admin dashboard summary endpoint. -/

/-- C9: the dashboard summary handler never returns its aggregation.
Its first statement evaluates the unbound module name sqlalchemy (the
module imports select and func directly), so every request raises
NameError regardless of the storage state. -/
theorem dashboard_name_error (s : BettingService) :
    get_admin_dashboard s = Except.error "NameError: name sqlalchemy is not defined" := by
  rfl

end Prikol
